import Mathlib

/-!
Verification development for the `@bevry/nodejs-versions` lifecycle
classification and filter-composition engine (`source/index.ts`).

Version identifiers are modelled as their dotted numeric components
(`List Nat`): a significant identifier such as `"0.10"` is `[0, 10]`, an
absolute identifier such as `"12.3.1"` is `[12, 3, 1]`.  Instants are
modelled as integer epoch milliseconds.  The two external repositories
(`@bevry/nodejs-schedule`, `@bevry/nodejs-releases`), the process-wide
reference clock, the `preloaded` flag and the three aggregate identifiers
form an explicit environment `Env`; predicates that can throw are
`Except String`-valued, mirroring the thrown `Error` messages.
-/

/-- A version identifier, as its dotted numeric components. -/
abbrev NodeVersionInput := List Nat

/-- `version-compare`: compare two versions componentwise over their common
depth, returning `-1`, `0` or `1`; a significant identifier compares equal
to any version that extends it. -/
def versionCompare : NodeVersionInput → NodeVersionInput → Int
  | [], _ => 0
  | _ :: _, [] => 0
  | a :: as, b :: bs =>
    if a > b then 1 else if b > a then -1 else versionCompare as bs

/-- `isAbsoluteVersion`: a version is absolute when it has exactly three
dotted components. -/
def isAbsoluteVersion (version : NodeVersionInput) : Bool :=
  version.length = 3

/-- The schedule metadata for a significant line
(`NodeScheduleInformation` from `@bevry/nodejs-schedule`). -/
structure NodeScheduleInformation where
  start : Int
  end_ : Int
  lts : Option Int
  maintenance : Option Int
  codename : Option String
deriving DecidableEq

/-- The release metadata for an absolute version
(`NodeReleaseInformation` from `@bevry/nodejs-releases`). -/
structure NodeReleaseInformation where
  date : Int
  lts : Option String
deriving DecidableEq

/-- The process-wide state the predicates read: the `preloaded` flag, the
two repositories, the schedule repository's iteration order, the three
aggregate identifiers, the reference clock `now`, and the external
`version-range` collaborator. -/
structure Env where
  preloaded : Bool
  schedule : NodeVersionInput → Option NodeScheduleInformation
  release : NodeVersionInput → Option NodeReleaseInformation
  scheduleIdentifiers : List NodeVersionInput
  nodeVersionLatestCurrent : Option NodeVersionInput
  nodeVersionLatestActive : Option NodeVersionInput
  nodeVersionLatestMaintenance : Option NodeVersionInput
  now : Int
  withinRange : NodeVersionInput → String → Bool

/-- `getNodeScheduleInformation` (external): looks the version up in the
schedule repository, throwing when it is absent. -/
def getNodeScheduleInformation (env : Env) (version : NodeVersionInput) :
    Except String NodeScheduleInformation :=
  match env.schedule version with
  | some meta => .ok meta
  | none => .error "Unable to find the Node.js version in the schedule cache"

/-- `getNodeReleaseInformation` (external): looks the version up in the
release repository, throwing when it is absent. -/
def getNodeReleaseInformation (env : Env) (version : NodeVersionInput) :
    Except String NodeReleaseInformation :=
  match env.release version with
  | some meta => .ok meta
  | none => .error "Unable to find the Node.js version in the release cache"

/-- The result of the safe schedule lookup: either the not-found sentinel
(the literal `false` of the source) or a schedule entry. -/
inductive ScheduleLookup where
  | sentinel
  | found (meta : NodeScheduleInformation)
deriving DecidableEq

/-- `getNodeScheduleInformationSafe`: return the sentinel for versions
prior to `0.8`, or equal to `0.9` or `0.11`; otherwise consult the
schedule repository (which may throw). -/
def getNodeScheduleInformationSafe (env : Env) (version : NodeVersionInput) :
    Except String ScheduleLookup :=
  if versionCompare version [0, 8] = -1 ∨
      versionCompare version [0, 9] = 0 ∨
      versionCompare version [0, 11] = 0 then
    .ok .sentinel
  else
    (getNodeScheduleInformation env version).map .found

/-- `isNodeVersionThese`: comparator equality with some member of the list. -/
def isNodeVersionThese (version : NodeVersionInput)
    (these : List NodeVersionInput) : Bool :=
  these.any fun seek => versionCompare version seek = 0

/-- `isNodeVersionBetween`: inclusive two-sided comparator range. -/
def isNodeVersionBetween (version : NodeVersionInput)
    (tuple : NodeVersionInput × NodeVersionInput) : Bool :=
  decide (versionCompare version tuple.1 ≥ 0 ∧ versionCompare version tuple.2 ≤ 0)

/-- `isNodeVersionLTE`. -/
def isNodeVersionLTE (version seek : NodeVersionInput) : Bool :=
  decide (versionCompare version seek ≤ 0)

/-- `isNodeVersionGTE`. -/
def isNodeVersionGTE (version seek : NodeVersionInput) : Bool :=
  decide (versionCompare version seek ≥ 0)

/-- `isNodeVersionLatestActive`: throws until the aggregate is computed,
then comparator equality with it. -/
def isNodeVersionLatestActive (env : Env) (version : NodeVersionInput) :
    Except String Bool :=
  match env.nodeVersionLatestActive with
  | none => .error "You must await [preloadNodeVersions] prior to using the [isNodeVersionLatestActive] filter."
  | some latest => .ok (decide (versionCompare version latest = 0))

/-- `isNodeVersionLatestCurrent`: throws until the aggregate is computed,
then comparator equality with it. -/
def isNodeVersionLatestCurrent (env : Env) (version : NodeVersionInput) :
    Except String Bool :=
  match env.nodeVersionLatestCurrent with
  | none => .error "You must await [preloadNodeVersions] prior to using the [isNodeVersionLatestCurrent] filter."
  | some latest => .ok (decide (versionCompare version latest = 0))

/-- `isNodeVersionLatestMaintenance`: throws until the aggregate is
computed, then comparator equality with it. -/
def isNodeVersionLatestMaintenance (env : Env) (version : NodeVersionInput) :
    Except String Bool :=
  match env.nodeVersionLatestMaintenance with
  | none => .error "You must await [preloadNodeVersions] prior to using the [isNodeVersionLatestMaintenance] filter."
  | some latest => .ok (decide (versionCompare version latest = 0))

/-- `isNodeVersionActive`: window `lts ≤ now ≤ (maintenance ∥ end)`;
absolute versions additionally need a string `lts` label in the release
repository; `false` when the line has no `lts` date. -/
def isNodeVersionActive (env : Env) (version : NodeVersionInput) :
    Except String Bool := do
  if env.preloaded = false then
    throw "You must await [preloadNodeVersions] prior to using the [isNodeVersionActive] filter."
  if isAbsoluteVersion version then
    let rel ← getNodeReleaseInformation env version
    if rel.lts.isNone then return false
  match ← getNodeScheduleInformationSafe env version with
  | .sentinel => return false
  | .found meta =>
    match meta.lts with
    | none => return false
    | some start =>
      let end_ := meta.maintenance.getD meta.end_
      return decide (env.now ≥ start ∧ env.now ≤ end_)

/-- `isNodeVersionActiveOrCurrent`: window `start ≤ now ≤ (maintenance ∥ end)`. -/
def isNodeVersionActiveOrCurrent (env : Env) (version : NodeVersionInput) :
    Except String Bool := do
  if env.preloaded = false then
    throw "You must await [preloadNodeVersions] prior to using the [isNodeVersionActiveOrCurrent] filter."
  match ← getNodeScheduleInformationSafe env version with
  | .sentinel => return false
  | .found meta =>
    let end_ := meta.maintenance.getD meta.end_
    return decide (env.now ≥ meta.start ∧ env.now ≤ end_)

/-- `isNodeVersionReleased`: `now ≥` release date (absolute) or schedule
start (significant). -/
def isNodeVersionReleased (env : Env) (version : NodeVersionInput) :
    Except String Bool := do
  if env.preloaded = false then
    throw "You must await [preloadNodeVersions] prior to using the [isNodeVersionReleased] filter."
  if isAbsoluteVersion version then
    let rel ← getNodeReleaseInformation env version
    return decide (env.now ≥ rel.date)
  else
    match ← getNodeScheduleInformationSafe env version with
    | .sentinel => return false
    | .found meta => return decide (env.now ≥ meta.start)

/-- `isNodeVersionCurrent`: window `start ≤ now ≤ (lts ∥ maintenance ∥ end)`. -/
def isNodeVersionCurrent (env : Env) (version : NodeVersionInput) :
    Except String Bool := do
  if env.preloaded = false then
    throw "You must await [preloadNodeVersions] prior to using the [isNodeVersionCurrent] filter."
  match ← getNodeScheduleInformationSafe env version with
  | .sentinel => return false
  | .found meta =>
    let end_ :=
      match meta.lts with
      | some l => l
      | none => meta.maintenance.getD meta.end_
    return decide (env.now ≥ meta.start ∧ env.now ≤ end_)

/-- `isNodeVersionESM`: pure comparator threshold at line `12`. -/
def isNodeVersionESM (version : NodeVersionInput) : Bool :=
  decide (versionCompare version [12] ≥ 0)

/-- `isNodeVersionLTS`: absolute versions at or above `1` need a string
`lts` label in the release repository; then `lts` date present or
`maintenance` date absent (the historical-line rule). -/
def isNodeVersionLTS (env : Env) (version : NodeVersionInput) :
    Except String Bool := do
  if env.preloaded = false then
    throw "You must await [preloadNodeVersions] prior to using the [isNodeVersionLTS] filter."
  if isAbsoluteVersion version = true ∧ versionCompare version [1] ≥ 0 then
    let rel ← getNodeReleaseInformation env version
    if rel.lts.isNone then return false
  match ← getNodeScheduleInformationSafe env version with
  | .sentinel => return false
  | .found meta => return (meta.lts.isSome || meta.maintenance.isNone)

/-- `isNodeVersionMaintained`: window `start ≤ now ≤ end`. -/
def isNodeVersionMaintained (env : Env) (version : NodeVersionInput) :
    Except String Bool := do
  if env.preloaded = false then
    throw "You must await [preloadNodeVersions] prior to using the [isNodeVersionMaintained] filter."
  match ← getNodeScheduleInformationSafe env version with
  | .sentinel => return false
  | .found meta => return decide (env.now ≥ meta.start ∧ env.now ≤ meta.end_)

/-- `isNodeVersionMaintainedOrLTS`: released and (maintained, or the
historical LTS rule). -/
def isNodeVersionMaintainedOrLTS (env : Env) (version : NodeVersionInput) :
    Except String Bool := do
  if env.preloaded = false then
    throw "You must await [preloadNodeVersions] prior to using the [isNodeVersionMaintainedOrLTS] filter."
  match ← getNodeScheduleInformationSafe env version with
  | .sentinel => return false
  | .found meta =>
    if decide (env.now ≥ meta.start) = false then return false
    if decide (env.now ≤ meta.end_) then return true
    return (meta.lts.isSome || meta.maintenance.isNone)

/-- `isNodeVersionMaintenance`: window `maintenance ≤ now ≤ end`; `false`
when the line has no `maintenance` date. -/
def isNodeVersionMaintenance (env : Env) (version : NodeVersionInput) :
    Except String Bool := do
  if env.preloaded = false then
    throw "You must await [preloadNodeVersions] prior to using the [isNodeVersionMaintenance] filter."
  match ← getNodeScheduleInformationSafe env version with
  | .sentinel => return false
  | .found meta =>
    match meta.maintenance with
    | none => return false
    | some start => return decide (env.now ≥ start ∧ env.now ≤ meta.end_)

/-- `isNodeVersionVercel` (current implementation, `source/index.ts`):
pure membership in the allow-list 10, 12, 14. -/
def isNodeVersionVercel (version : NodeVersionInput) : Bool :=
  decide (versionCompare version [10] = 0 ∨
    versionCompare version [12] = 0 ∨
    versionCompare version [14] = 0)

namespace Legacy

/-- `isNodeVersionVercel` (older single-dataset implementation): pure
membership in the allow-list 10, 12. -/
def isNodeVersionVercel (version : NodeVersionInput) : Bool :=
  decide (versionCompare version [10] = 0 ∨ versionCompare version [12] = 0)

end Legacy

/-- `last` from `@bevry/list`: the final element, or nothing for an empty
list (`arr[arr.length - 1]`). -/
def last {α : Type} (l : List α) : Option α :=
  l.getLast?

/-- `Array.prototype.filter` with a possibly-throwing callback: the first
thrown error propagates, otherwise the kept elements in order. -/
def filterE {α : Type} (p : α → Except String Bool) :
    List α → Except String (List α)
  | [] => .ok []
  | a :: as =>
    match p a with
    | .error e => .error e
    | .ok keep =>
      match filterE p as with
      | .error e => .error e
      | .ok rest => .ok (if keep then a :: rest else rest)

/-- `preloadNodeVersions`: mark the repositories preloaded, then compute
the three aggregate identifiers, each as `last` of the schedule
identifiers filtered by the corresponding predicate. -/
def preloadNodeVersions (env : Env) : Except String Env := do
  let env1 := { env with preloaded := true }
  let filteredCurrent ← filterE (isNodeVersionCurrent env1) env1.scheduleIdentifiers
  let filteredActive ← filterE (isNodeVersionActive env1) env1.scheduleIdentifiers
  let filteredMaintenance ← filterE (isNodeVersionMaintenance env1) env1.scheduleIdentifiers
  return { env1 with
    nodeVersionLatestCurrent := last filteredCurrent
    nodeVersionLatestActive := last filteredActive
    nodeVersionLatestMaintenance := last filteredMaintenance }

/-- The filter configuration: the five parametric keys are optional, the
boolean keys default to `false` (a missing key and a falsy value are
indistinguishable in the source's truthiness checks). -/
structure Filters where
  these : Option (List NodeVersionInput) := none
  between : Option (NodeVersionInput × NodeVersionInput) := none
  lte : Option NodeVersionInput := none
  gte : Option NodeVersionInput := none
  range : Option String := none
  active : Bool := false
  activeOrCurrent : Bool := false
  current : Bool := false
  esm : Bool := false
  latestActive : Bool := false
  latestCurrent : Bool := false
  latestMaintenance : Bool := false
  lts : Bool := false
  maintained : Bool := false
  maintainedOrLTS : Bool := false
  maintenance : Bool := false
  released : Bool := false
  vercel : Bool := false
deriving DecidableEq

/-- The boolean filter keys of `isNodeVersion`, in the exact order the
source tests them, each paired with the predicate it invokes. -/
def booleanChecks :
    List ((Filters → Bool) × (Env → NodeVersionInput → Except String Bool)) :=
  [(Filters.active, isNodeVersionActive),
   (Filters.activeOrCurrent, isNodeVersionActiveOrCurrent),
   (Filters.current, isNodeVersionCurrent),
   (Filters.esm, fun _ version => .ok (isNodeVersionESM version)),
   (Filters.latestActive, isNodeVersionLatestActive),
   (Filters.latestCurrent, isNodeVersionLatestCurrent),
   (Filters.latestMaintenance, isNodeVersionLatestMaintenance),
   (Filters.lts, isNodeVersionLTS),
   (Filters.maintained, isNodeVersionMaintained),
   (Filters.maintainedOrLTS, isNodeVersionMaintainedOrLTS),
   (Filters.maintenance, isNodeVersionMaintenance),
   (Filters.released, isNodeVersionReleased),
   (Filters.vercel, fun _ version => .ok (isNodeVersionVercel version))]

/-- The checks contributed by a list of keyed predicates: one check per
key the configuration marks present, in list order. -/
def presentChecks
    (cs : List ((Filters → Bool) × (Env → NodeVersionInput → Except String Bool)))
    (env : Env) (version : NodeVersionInput) (filters : Filters) :
    List (Except String Bool) :=
  cs.foldr (fun kp acc => (if kp.1 filters then [kp.2 env version] else []) ++ acc) []

/-- The ordered list of checks `isNodeVersion` performs for a
configuration: one entry per present (truthy) key, parametric keys first,
exactly mirroring the source's chain of early returns. -/
def nodeVersionChecks (env : Env) (version : NodeVersionInput)
    (filters : Filters) : List (Except String Bool) :=
  (match filters.these with
    | some these => [.ok (isNodeVersionThese version these)]
    | none => []) ++
  (match filters.between with
    | some tuple => [.ok (isNodeVersionBetween version tuple)]
    | none => []) ++
  (match filters.lte with
    | some seek => [.ok (isNodeVersionLTE version seek)]
    | none => []) ++
  (match filters.gte with
    | some seek => [.ok (isNodeVersionGTE version seek)]
    | none => []) ++
  (match filters.range with
    | some range => if range = "" then [] else [.ok (env.withinRange version range)]
    | none => []) ++
  presentChecks booleanChecks env version filters

/-- Run checks in order: the first `false` wins (the source's early
`return false`), the first error among the checks before it propagates,
and an empty remainder yields `true`. -/
def andAllE : List (Except String Bool) → Except String Bool
  | [] => .ok true
  | c :: cs =>
    match c with
    | .error e => .error e
    | .ok b => if b then andAllE cs else .ok false

/-- `isNodeVersion`: the conjunction of every present filter key's check,
evaluated in the source's order with its short-circuit semantics. -/
def isNodeVersion (env : Env) (version : NodeVersionInput)
    (filters : Filters) : Except String Bool :=
  andAllE (nodeVersionChecks env version filters)

/-- `filterNodeVersions`: keep the versions admitted by the filters,
preserving order. -/
def filterNodeVersions (env : Env) (versions : List NodeVersionInput)
    (filters : Filters) : Except String (List NodeVersionInput) :=
  filterE (fun version => isNodeVersion env version filters) versions

/-- A configuration that uses only boolean predicate keys: all five
parametric keys are absent. -/
def booleanOnly (f : Filters) : Prop :=
  f.these = none ∧ f.between = none ∧ f.lte = none ∧ f.gte = none ∧
    f.range = none

instance (f : Filters) : Decidable (booleanOnly f) := by
  unfold booleanOnly; infer_instance

/-- The conjunction of two boolean-only configurations: each boolean key
is present when it is present in either. -/
def mergeFilters (a b : Filters) : Filters where
  active := a.active || b.active
  activeOrCurrent := a.activeOrCurrent || b.activeOrCurrent
  current := a.current || b.current
  esm := a.esm || b.esm
  latestActive := a.latestActive || b.latestActive
  latestCurrent := a.latestCurrent || b.latestCurrent
  latestMaintenance := a.latestMaintenance || b.latestMaintenance
  lts := a.lts || b.lts
  maintained := a.maintained || b.maintained
  maintainedOrLTS := a.maintainedOrLTS || b.maintainedOrLTS
  maintenance := a.maintenance || b.maintenance
  released := a.released || b.released
  vercel := a.vercel || b.vercel

/-- Whether an exceptional computation succeeded. -/
def predOk {α : Type} : Except String α → Bool
  | .ok _ => true
  | .error _ => false

/-- Whether an exceptional boolean computation succeeded with `true`. -/
def okTrue : Except String Bool → Bool
  | .ok true => true
  | _ => false

/-- All thirteen classifier predicates evaluate without error on this
version in this environment. -/
def predsOk (env : Env) (version : NodeVersionInput) : Prop :=
  ∀ kp ∈ booleanChecks, predOk (kp.2 env version) = true

/-- The last element of a list satisfying a predicate, scanning in list
order (the spec's "last identifier in repository iteration order for
which the predicate holds"). -/
def lastSatisfying {α : Type} (p : α → Bool) : List α → Option α
  | [] => none
  | a :: as =>
    match lastSatisfying p as with
    | some b => some b
    | none => if p a then some a else none

/-- A populated, preloaded environment: four tracked lines `10`, `12`,
`14`, `15` (plus the never-LTS line `13` in the schedule map), two
absolute releases, clock at `50`, aggregates computed. -/
def envW : Env where
  preloaded := true
  schedule := fun v =>
    if v = [10] then
      some { start := 0, end_ := 100, lts := some 10, maintenance := some 20, codename := none }
    else if v = [12] then
      some { start := 10, end_ := 120, lts := some 30, maintenance := some 80, codename := none }
    else if v = [13] then
      some { start := 5, end_ := 25, lts := none, maintenance := none, codename := none }
    else if v = [14] then
      some { start := 20, end_ := 140, lts := some 40, maintenance := some 90, codename := none }
    else if v = [15] then
      some { start := 30, end_ := 70, lts := none, maintenance := some 60, codename := none }
    else none
  release := fun v =>
    if v = [12, 3, 1] then some { date := 15, lts := some "Erbium" }
    else if v = [13, 0, 0] then some { date := 6, lts := none }
    else none
  scheduleIdentifiers := [[10], [12], [14], [15]]
  nodeVersionLatestCurrent := some [15]
  nodeVersionLatestActive := some [14]
  nodeVersionLatestMaintenance := some [10]
  now := 50
  withinRange := fun _ _ => true

/-- The same data as `envW` but not yet preloaded: flag down, aggregates
not computed. -/
def envP : Env :=
  { envW with
    preloaded := false
    nodeVersionLatestCurrent := none
    nodeVersionLatestActive := none
    nodeVersionLatestMaintenance := none }

/-- The aggregate values `preloadNodeVersions` computes for `envP`. -/
def envP' : Env :=
  { envW with
    nodeVersionLatestCurrent := some [15]
    nodeVersionLatestActive := some [14]
    nodeVersionLatestMaintenance := some [10] }

/-- An unpreloaded environment whose only schedule line `13` is never
current, active or maintained at its clock, so every aggregate stays
empty after preloading. -/
def envN : Env :=
  { envP with scheduleIdentifiers := [[13]] }

/-- A preloaded environment whose line `10` sits exactly at its LTS
cutover instant: clock `10`, entry `start 0, lts 10, maintenance 20,
end 30`. -/
def envC1 : Env where
  preloaded := true
  schedule := fun v =>
    if v = [10] then
      some { start := 0, end_ := 30, lts := some 10, maintenance := some 20, codename := none }
    else none
  release := fun _ => none
  scheduleIdentifiers := [[10]]
  nodeVersionLatestCurrent := none
  nodeVersionLatestActive := none
  nodeVersionLatestMaintenance := none
  now := 10
  withinRange := fun _ _ => false

/-- A preloaded environment holding the absolute historical release
`0.10.5`: its release entry has no LTS label, its schedule entry has no
`lts` and no `maintenance` date. -/
def envC3 : Env where
  preloaded := true
  schedule := fun v =>
    if v = [0, 10, 5] then
      some { start := 0, end_ := 10, lts := none, maintenance := none, codename := none }
    else none
  release := fun v =>
    if v = [0, 10, 5] then some { date := 0, lts := none } else none
  scheduleIdentifiers := [[0, 10]]
  nodeVersionLatestCurrent := none
  nodeVersionLatestActive := none
  nodeVersionLatestMaintenance := none
  now := 5
  withinRange := fun _ _ => false

/-- A completely unpreloaded environment: empty repositories, no
aggregates. -/
def envU : Env where
  preloaded := false
  schedule := fun _ => none
  release := fun _ => none
  scheduleIdentifiers := []
  nodeVersionLatestCurrent := none
  nodeVersionLatestActive := none
  nodeVersionLatestMaintenance := none
  now := 0
  withinRange := fun _ _ => false

@[simp] theorem pure_eq_ok {α : Type} (a : α) : (pure a : Except String α) = .ok a := rfl

@[simp] theorem throw_eq_error {α : Type} (e : String) :
    (throw e : Except String α) = .error e := rfl

@[simp] theorem ok_bind {α β : Type} (b : α) (k : α → Except String β) :
    (Except.ok b >>= k) = k b := rfl

@[simp] theorem error_bind {α β : Type} (e : String) (k : α → Except String β) :
    ((Except.error e : Except String α) >>= k) = .error e := rfl

@[simp] theorem okTrue_ok (b : Bool) : okTrue (.ok b) = b := by cases b <;> rfl

@[simp] theorem okTrue_error (e : String) : okTrue (.error e) = false := rfl

@[simp] theorem predOk_ok {α : Type} (a : α) : predOk (.ok a) = true := rfl

@[simp] theorem predOk_error {α : Type} (e : String) :
    predOk (Except.error e : Except String α) = false := rfl

/-- A successful `filterE` run returns `List.filter` over the success
values of the predicate. -/
theorem filterE_ok_eq {α : Type} (p : α → Except String Bool) (l : List α) :
    ∀ r, filterE p l = .ok r → r = l.filter fun a => okTrue (p a) := by
  induction l with
  | nil =>
    intro r h
    simpa [filterE] using h.symm
  | cons a as ih =>
    intro r h
    rw [filterE] at h
    cases hp : p a with
    | error e => rw [hp] at h; cases h
    | ok b =>
      rw [hp] at h
      cases hrest : filterE p as with
      | error e => rw [hrest] at h; cases h
      | ok rest =>
        rw [hrest] at h
        cases h
        cases b <;> simp [List.filter_cons, hp, ih rest hrest]

/-- When every callback run succeeds, `filterE` succeeds with the
corresponding `List.filter`. -/
theorem filterE_ok_of_all {α : Type} (p : α → Except String Bool) (l : List α)
    (h : ∀ a ∈ l, predOk (p a) = true) :
    filterE p l = .ok (l.filter fun a => okTrue (p a)) := by
  induction l with
  | nil => rfl
  | cons a as ih =>
    obtain ⟨b, hb⟩ : ∃ b, p a = .ok b := by
      cases hpa : p a with
      | error e =>
        have := h a (by simp)
        rw [hpa] at this
        cases this
      | ok b => exact ⟨b, rfl⟩
    rw [filterE, hb, ih fun x hx => h x (by simp [hx])]
    cases b <;> simp [List.filter_cons, hb]

/-- `getLast?` after `List.filter` is the last element satisfying the
predicate in list order. -/
theorem getLast?_filter {α : Type} (p : α → Bool) (l : List α) :
    (l.filter p).getLast? = lastSatisfying p l := by
  induction l with
  | nil => rfl
  | cons a as ih =>
    rw [lastSatisfying]
    cases hls : lastSatisfying p as with
    | some b =>
      have hf : (as.filter p).getLast? = some b := by rw [ih, hls]
      cases hpa : p a with
      | true =>
        cases hfp : as.filter p with
        | nil => rw [hfp] at hf; cases hf
        | cons c cs =>
          rw [hfp] at hf
          simpa [List.filter_cons, hpa, hfp, List.getLast?_cons_cons] using hf
      | false => simp [List.filter_cons, hpa, hf]
    | none =>
      have hf : (as.filter p).getLast? = none := by rw [ih, hls]
      have hfp : as.filter p = [] := by
        cases hfp : as.filter p with
        | nil => rfl
        | cons c cs => rw [hfp] at hf; cases hf
      cases hpa : p a with
      | true => simp [List.filter_cons, hpa, hfp]
      | false => simp [List.filter_cons, hpa, hfp]

/-- A predicate false everywhere on the list has no last satisfier. -/
theorem lastSatisfying_eq_none {α : Type} (p : α → Bool) (l : List α)
    (h : ∀ a ∈ l, p a = false) : lastSatisfying p l = none := by
  induction l with
  | nil => rfl
  | cons a as ih =>
    rw [lastSatisfying, ih fun x hx => h x (by simp [hx])]
    simp [h a (by simp)]

/-- The safe lookup yields an entry exactly when the version is not an
excluded edge case and the schedule repository holds the entry. -/
theorem safe_found_iff (env : Env) (v : NodeVersionInput)
    (meta : NodeScheduleInformation) :
    getNodeScheduleInformationSafe env v = .ok (.found meta) ↔
      ¬(versionCompare v [0, 8] = -1 ∨ versionCompare v [0, 9] = 0 ∨
          versionCompare v [0, 11] = 0) ∧ env.schedule v = some meta := by
  unfold getNodeScheduleInformationSafe getNodeScheduleInformation
  split
  · rename_i hcond
    simp [hcond]
  · rename_i hcond
    cases env.schedule v <;> simp [Except.map, hcond]

/-- Dissecting a successful preload: the flag is up and each aggregate is
the last schedule identifier (in iteration order) whose predicate holds
in the flagged environment. -/
theorem preload_ok_eq (env env' : Env) (h : preloadNodeVersions env = .ok env') :
    env' = { env with
      preloaded := true
      nodeVersionLatestCurrent := lastSatisfying
        (fun v => okTrue (isNodeVersionCurrent { env with preloaded := true } v))
        env.scheduleIdentifiers
      nodeVersionLatestActive := lastSatisfying
        (fun v => okTrue (isNodeVersionActive { env with preloaded := true } v))
        env.scheduleIdentifiers
      nodeVersionLatestMaintenance := lastSatisfying
        (fun v => okTrue (isNodeVersionMaintenance { env with preloaded := true } v))
        env.scheduleIdentifiers } := by
  unfold preloadNodeVersions at h
  cases hc : filterE (isNodeVersionCurrent { env with preloaded := true })
      env.scheduleIdentifiers with
  | error e => simp [hc] at h
  | ok lc =>
    cases ha : filterE (isNodeVersionActive { env with preloaded := true })
        env.scheduleIdentifiers with
    | error e => simp [hc, ha] at h
    | ok la =>
      cases hm : filterE (isNodeVersionMaintenance { env with preloaded := true })
          env.scheduleIdentifiers with
      | error e => simp [hc, ha, hm] at h
      | ok lm =>
        simp only [hc, ha, hm, ok_bind] at h
        have hc' := filterE_ok_eq _ _ _ hc
        have ha' := filterE_ok_eq _ _ _ ha
        have hm' := filterE_ok_eq _ _ _ hm
        cases h
        subst hc' ha' hm'
        simp only [last, getLast?_filter]

/-- `active` on a preloaded, non-absolute version with a found entry
carrying an `lts` date is the Active-LTS window test. -/
theorem active_found_some (env : Env) (v : NodeVersionInput)
    (meta : NodeScheduleInformation) (l : Int)
    (hp : env.preloaded = true) (habs : isAbsoluteVersion v = false)
    (hsafe : getNodeScheduleInformationSafe env v = .ok (.found meta))
    (hl : meta.lts = some l) :
    isNodeVersionActive env v =
      .ok (decide (env.now ≥ l ∧ env.now ≤ meta.maintenance.getD meta.end_)) := by
  unfold isNodeVersionActive
  simp [hp, habs, hsafe, hl]

/-- `active` on a preloaded version whose found entry has no `lts` date is
`false` (never an error), provided any required release entry exists. -/
theorem active_found_none (env : Env) (v : NodeVersionInput)
    (meta : NodeScheduleInformation)
    (hp : env.preloaded = true)
    (hrel : isAbsoluteVersion v = true → (env.release v).isSome = true)
    (hsafe : getNodeScheduleInformationSafe env v = .ok (.found meta))
    (hl : meta.lts = none) :
    isNodeVersionActive env v = .ok false := by
  by_cases habs : isAbsoluteVersion v = true
  · obtain ⟨rel, hr⟩ : ∃ rel, env.release v = some rel := by
      cases hr : env.release v with
      | none => exact absurd (hrel habs) (by simp [hr])
      | some rel => exact ⟨rel, rfl⟩
    cases hlab : rel.lts with
    | none =>
      unfold isNodeVersionActive getNodeReleaseInformation
      simp [hp, habs, hr, hlab]
    | some s =>
      unfold isNodeVersionActive getNodeReleaseInformation
      simp [hp, habs, hr, hlab, hsafe, hl]
  · unfold isNodeVersionActive
    simp [hp, habs, hsafe, hl]

/-- `current` on a preloaded version with a found entry carrying an `lts`
date is the pre-LTS window test. -/
theorem current_found_lts (env : Env) (v : NodeVersionInput)
    (meta : NodeScheduleInformation) (l : Int)
    (hp : env.preloaded = true)
    (hsafe : getNodeScheduleInformationSafe env v = .ok (.found meta))
    (hl : meta.lts = some l) :
    isNodeVersionCurrent env v =
      .ok (decide (env.now ≥ meta.start ∧ env.now ≤ l)) := by
  unfold isNodeVersionCurrent
  simp [hp, hsafe, hl]

/-- `maintenance` on a preloaded version with a found entry carrying a
`maintenance` date is the maintenance window test. -/
theorem maintenance_found_some (env : Env) (v : NodeVersionInput)
    (meta : NodeScheduleInformation) (m : Int)
    (hp : env.preloaded = true)
    (hsafe : getNodeScheduleInformationSafe env v = .ok (.found meta))
    (hm : meta.maintenance = some m) :
    isNodeVersionMaintenance env v =
      .ok (decide (env.now ≥ m ∧ env.now ≤ meta.end_)) := by
  unfold isNodeVersionMaintenance
  simp [hp, hsafe, hm]

/-- `maintenance` on a preloaded version whose found entry has no
`maintenance` date is `false` (never an error). -/
theorem maintenance_found_none (env : Env) (v : NodeVersionInput)
    (meta : NodeScheduleInformation)
    (hp : env.preloaded = true)
    (hsafe : getNodeScheduleInformationSafe env v = .ok (.found meta))
    (hm : meta.maintenance = none) :
    isNodeVersionMaintenance env v = .ok false := by
  unfold isNodeVersionMaintenance
  simp [hp, hsafe, hm]

/-- `maintainedOrLTS` succeeds with `true` on a preloaded version whose
found entry has started, once it is either still maintained or carries an
`lts` date. -/
theorem maintainedOrLTS_ok_true (env : Env) (v : NodeVersionInput)
    (meta : NodeScheduleInformation)
    (hp : env.preloaded = true)
    (hsafe : getNodeScheduleInformationSafe env v = .ok (.found meta))
    (h1 : env.now ≥ meta.start)
    (h2 : env.now ≤ meta.end_ ∨ meta.lts.isSome = true) :
    isNodeVersionMaintainedOrLTS env v = .ok true := by
  unfold isNodeVersionMaintainedOrLTS
  have hnl : ¬env.now < meta.start := not_lt.mpr h1
  rcases h2 with h2 | h2
  · simp [hp, hsafe, hnl, h2]
  · by_cases h3 : env.now ≤ meta.end_ <;> simp [hp, hsafe, hnl, h2, h3]

deriving instance DecidableEq for Except

theorem okTrue_eq_false {x : Except String Bool} (h : x ≠ .ok true) :
    okTrue x = false := by
  cases x with
  | error e => rfl
  | ok b =>
    cases b with
    | true => exact absurd rfl h
    | false => rfl

/-- Eliminating a successful `active` check: the flag was up, the safe
lookup found an entry with an `lts` date, and the clock lies in the
Active-LTS window. -/
theorem active_ok_true_elim (env : Env) (v : NodeVersionInput)
    (h : isNodeVersionActive env v = .ok true) :
    env.preloaded = true ∧
      ∃ meta l, getNodeScheduleInformationSafe env v = .ok (.found meta) ∧
        meta.lts = some l ∧ env.now ≥ l ∧
        env.now ≤ meta.maintenance.getD meta.end_ := by
  unfold isNodeVersionActive at h
  cases hpv : env.preloaded with
  | false => simp [hpv] at h
  | true =>
    refine ⟨rfl, ?_⟩
    simp only [hpv, Bool.true_eq_false, if_false, ite_false] at h
    cases habs : isAbsoluteVersion v with
    | false =>
      simp only [habs, Bool.false_eq_true, if_false, ite_false] at h
      cases hsl : getNodeScheduleInformationSafe env v with
      | error e => rw [hsl] at h; simp at h
      | ok sl =>
        rw [hsl] at h
        cases sl with
        | sentinel => simp at h
        | found meta =>
          cases hl : meta.lts with
          | none => simp [hl] at h
          | some l =>
            simp only [ok_bind, hl, pure_eq_ok, Except.ok.injEq,
              decide_eq_true_eq] at h
            exact ⟨meta, l, rfl, hl, h.1, h.2⟩
    | true =>
      simp only [habs, if_true, ite_true] at h
      cases hr : env.release v with
      | none => simp [getNodeReleaseInformation, hr] at h
      | some rel =>
        simp only [getNodeReleaseInformation, hr, ok_bind] at h
        cases hlab : rel.lts with
        | none => simp [hlab] at h
        | some s =>
          simp only [hlab, Option.isNone_some, Bool.false_eq_true, if_false,
            ite_false] at h
          cases hsl : getNodeScheduleInformationSafe env v with
          | error e => rw [hsl] at h; simp at h
          | ok sl =>
            rw [hsl] at h
            cases sl with
            | sentinel => simp at h
            | found meta =>
              cases hl : meta.lts with
              | none => simp [hl] at h
              | some l =>
                simp only [ok_bind, hl, pure_eq_ok, Except.ok.injEq,
                  decide_eq_true_eq] at h
                exact ⟨meta, l, rfl, hl, h.1, h.2⟩

/-- The schedule entry `envC1` holds for line `10`. -/
def entryC1 : NodeScheduleInformation :=
  { start := 0, end_ := 30, lts := some 10, maintenance := some 20, codename := none }

/-- The schedule entry `envW` holds for line `12`. -/
def entryW12 : NodeScheduleInformation :=
  { start := 10, end_ := 120, lts := some 30, maintenance := some 80, codename := none }

/-- The schedule entry `envW` holds for line `13`. -/
def entryW13 : NodeScheduleInformation :=
  { start := 5, end_ := 25, lts := none, maintenance := none, codename := none }

/-- C1, counterexample: at the LTS cutover instant the Current and Active
phases overlap.  In `envC1` line `10` has distinct `lts` (10) and
`maintenance` (20) dates and the clock `10` lies strictly between `start`
0 and `end` 30, yet `isNodeVersionCurrent` and `isNodeVersionActive` both
return `true`, so exactly one of the three phase predicates does not hold. -/
theorem phase_windows_overlap_at_cutover :
    envC1.schedule [10] = some entryC1 ∧
    entryC1.lts = some 10 ∧ entryC1.maintenance = some 20 ∧
    envC1.now = 10 ∧ envC1.preloaded = true ∧
    isNodeVersionCurrent envC1 [10] = .ok true ∧
    isNodeVersionActive envC1 [10] = .ok true ∧
    isNodeVersionMaintenance envC1 [10] = .ok false := by
  refine ⟨rfl, rfl, rfl, rfl, rfl, ?_, ?_, ?_⟩ <;> rfl

/-- C1, amended: for a preloaded significant identifier whose found
schedule entry has both an `lts` and a `maintenance` date in order
(`lts < maintenance`), with the clock strictly inside the overall window
and distinct from the two cutover instants, exactly one of
`isNodeVersionCurrent`, `isNodeVersionActive`, `isNodeVersionMaintenance`
returns `true`. -/
theorem phase_windows_partition (env : Env) (v : NodeVersionInput)
    (meta : NodeScheduleInformation) (l m : Int)
    (hp : env.preloaded = true) (habs : isAbsoluteVersion v = false)
    (hsafe : getNodeScheduleInformationSafe env v = .ok (.found meta))
    (hl : meta.lts = some l) (hm : meta.maintenance = some m)
    (hlm : l < m)
    (h1 : meta.start < env.now) (h2 : env.now < meta.end_)
    (hnl : env.now ≠ l) (hnm : env.now ≠ m) :
    (isNodeVersionCurrent env v = .ok true ∧
      isNodeVersionActive env v = .ok false ∧
      isNodeVersionMaintenance env v = .ok false) ∨
    (isNodeVersionCurrent env v = .ok false ∧
      isNodeVersionActive env v = .ok true ∧
      isNodeVersionMaintenance env v = .ok false) ∨
    (isNodeVersionCurrent env v = .ok false ∧
      isNodeVersionActive env v = .ok false ∧
      isNodeVersionMaintenance env v = .ok true) := by
  have hcur := current_found_lts env v meta l hp hsafe hl
  have hact := active_found_some env v meta l hp habs hsafe hl
  have hmnt := maintenance_found_some env v meta m hp hsafe hm
  rw [hm, Option.getD_some] at hact
  rcases lt_trichotomy env.now l with h | h | h
  · exact Or.inl ⟨by rw [hcur]; simp; omega,
      by rw [hact]; simp; omega, by rw [hmnt]; simp; omega⟩
  · exact absurd h hnl
  · rcases lt_trichotomy env.now m with h' | h' | h'
    · exact Or.inr (Or.inl ⟨by rw [hcur]; simp; omega,
        by rw [hact]; simp; omega, by rw [hmnt]; simp; omega⟩)
    · exact absurd h' hnm
    · exact Or.inr (Or.inr ⟨by rw [hcur]; simp; omega,
        by rw [hact]; simp; omega, by rw [hmnt]; simp; omega⟩)

theorem phase_windows_partition_witness :
    (isNodeVersionCurrent envW [12] = .ok true ∧
      isNodeVersionActive envW [12] = .ok false ∧
      isNodeVersionMaintenance envW [12] = .ok false) ∨
    (isNodeVersionCurrent envW [12] = .ok false ∧
      isNodeVersionActive envW [12] = .ok true ∧
      isNodeVersionMaintenance envW [12] = .ok false) ∨
    (isNodeVersionCurrent envW [12] = .ok false ∧
      isNodeVersionActive envW [12] = .ok false ∧
      isNodeVersionMaintenance envW [12] = .ok true) :=
  phase_windows_partition envW [12] entryW12 30 80 rfl rfl rfl rfl rfl
    (by decide) (by decide) (by decide) (by decide) (by decide)

/-- C2: whenever `isNodeVersionActive` returns `true`, so does
`isNodeVersionMaintainedOrLTS`, for any schedule entry whose `lts` date
is not before its `start` date (the phase-boundary shape every published
schedule line has). -/
theorem active_implies_maintainedOrLTS (env : Env) (v : NodeVersionInput)
    (hwf : ∀ meta l, getNodeScheduleInformationSafe env v = .ok (.found meta) →
      meta.lts = some l → meta.start ≤ l)
    (hactive : isNodeVersionActive env v = .ok true) :
    isNodeVersionMaintainedOrLTS env v = .ok true := by
  obtain ⟨hp, meta, l, hsafe, hl, hw1, hw2⟩ := active_ok_true_elim env v hactive
  exact maintainedOrLTS_ok_true env v meta hp hsafe
    (le_trans (hwf meta l hsafe hl) hw1) (Or.inr (by simp [hl]))

theorem active_implies_maintainedOrLTS_witness :
    isNodeVersionMaintainedOrLTS envW [12] = .ok true :=
  active_implies_maintainedOrLTS envW [12]
    (by
      intro meta l hs hl
      have h0 : (Except.ok (ScheduleLookup.found entryW12) :
          Except String ScheduleLookup) = .ok (.found meta) := by
        rw [← hs]; rfl
      cases h0
      cases hl
      decide)
    rfl

/-- C6: each `latest*` predicate throws the unpreloaded error, rather than
returning `false`, while its aggregate value is not yet computed. -/
theorem latest_unpreloaded_error (env : Env) (v : NodeVersionInput)
    (ha : env.nodeVersionLatestActive = none)
    (hc : env.nodeVersionLatestCurrent = none)
    (hm : env.nodeVersionLatestMaintenance = none) :
    isNodeVersionLatestActive env v =
      .error "You must await [preloadNodeVersions] prior to using the [isNodeVersionLatestActive] filter." ∧
    isNodeVersionLatestCurrent env v =
      .error "You must await [preloadNodeVersions] prior to using the [isNodeVersionLatestCurrent] filter." ∧
    isNodeVersionLatestMaintenance env v =
      .error "You must await [preloadNodeVersions] prior to using the [isNodeVersionLatestMaintenance] filter." := by
  unfold isNodeVersionLatestActive isNodeVersionLatestCurrent
    isNodeVersionLatestMaintenance
  rw [ha, hc, hm]
  exact ⟨rfl, rfl, rfl⟩

theorem latest_unpreloaded_error_witness :
    isNodeVersionLatestActive envU [14] =
      .error "You must await [preloadNodeVersions] prior to using the [isNodeVersionLatestActive] filter." ∧
    isNodeVersionLatestCurrent envU [14] =
      .error "You must await [preloadNodeVersions] prior to using the [isNodeVersionLatestCurrent] filter." ∧
    isNodeVersionLatestMaintenance envU [14] =
      .error "You must await [preloadNodeVersions] prior to using the [isNodeVersionLatestMaintenance] filter." :=
  latest_unpreloaded_error envU [14] rfl rfl rfl

/-- C7: for a preloaded identifier whose safe schedule lookup finds an
entry (and whose release entry exists when the identifier is absolute), a
missing `lts` date makes `isNodeVersionActive` return `false`, and a
missing `maintenance` date makes `isNodeVersionMaintenance` return
`false`; neither raises an error. -/
theorem dateless_entry_false (env : Env) (v : NodeVersionInput)
    (meta : NodeScheduleInformation)
    (hp : env.preloaded = true)
    (hrel : isAbsoluteVersion v = true → (env.release v).isSome = true)
    (hsafe : getNodeScheduleInformationSafe env v = .ok (.found meta)) :
    (meta.lts = none → isNodeVersionActive env v = .ok false) ∧
    (meta.maintenance = none → isNodeVersionMaintenance env v = .ok false) :=
  ⟨fun hl => active_found_none env v meta hp hrel hsafe hl,
   fun hm => maintenance_found_none env v meta hp hsafe hm⟩

theorem dateless_entry_false_witness :
    isNodeVersionActive envW [13] = .ok false ∧
    isNodeVersionMaintenance envW [13] = .ok false :=
  ⟨(dateless_entry_false envW [13] entryW13 rfl (by decide) rfl).1 rfl,
   (dateless_entry_false envW [13] entryW13 rfl (by decide) rfl).2 rfl⟩

/-- C8: the safe schedule lookup returns the not-found sentinel, without
consulting the repository and without throwing, exactly for versions
comparing below `0.8` or equal to `0.9` or `0.11`; for any other version
it returns the repository's entry when one exists. -/
theorem safe_lookup_spec (env : Env) (v : NodeVersionInput) :
    ((versionCompare v [0, 8] = -1 ∨ versionCompare v [0, 9] = 0 ∨
        versionCompare v [0, 11] = 0) →
      getNodeScheduleInformationSafe env v = .ok .sentinel) ∧
    (¬(versionCompare v [0, 8] = -1 ∨ versionCompare v [0, 9] = 0 ∨
        versionCompare v [0, 11] = 0) →
      ∀ meta, env.schedule v = some meta →
        getNodeScheduleInformationSafe env v = .ok (.found meta)) := by
  constructor
  · intro h
    unfold getNodeScheduleInformationSafe
    rw [if_pos h]
  · intro h meta hs
    exact (safe_found_iff env v meta).mpr ⟨h, hs⟩

theorem safe_lookup_spec_witness :
    getNodeScheduleInformationSafe envW [0, 9] = .ok .sentinel ∧
    getNodeScheduleInformationSafe envW [12] = .ok (.found entryW12) :=
  ⟨(safe_lookup_spec envW [0, 9]).1 (by decide),
   (safe_lookup_spec envW [12]).2 (by decide) _ rfl⟩

/-- C9, counterexample: the two `isNodeVersionVercel` implementations in
the repository disagree at `14` — the current allow-list contains `14`,
the older one does not. -/
theorem vercel_implementations_disagree :
    isNodeVersionVercel [14] = true ∧ Legacy.isNodeVersionVercel [14] = false := by
  decide

/-- C9, amended: `isNodeVersionVercel` is pure membership in the fixed
allow-list 10, 12, 14 — in particular `true` at `12` and `14`, `false` at
`13` — while the older implementation's allow-list is 10, 12, so the two
implementations agree exactly on inputs not comparing equal to `14`. -/
theorem vercel_allowlist :
    isNodeVersionVercel [12] = true ∧ isNodeVersionVercel [14] = true ∧
    isNodeVersionVercel [13] = false ∧
    (∀ v, isNodeVersionVercel v = true ↔
      (versionCompare v [10] = 0 ∨ versionCompare v [12] = 0 ∨
        versionCompare v [14] = 0)) ∧
    (∀ v, versionCompare v [14] ≠ 0 →
      Legacy.isNodeVersionVercel v = isNodeVersionVercel v) := by
  refine ⟨rfl, rfl, rfl, fun v => by simp [isNodeVersionVercel], fun v h => ?_⟩
  unfold isNodeVersionVercel Legacy.isNodeVersionVercel
  simp [h]

theorem vercel_allowlist_witness :
    Legacy.isNodeVersionVercel [11] = isNodeVersionVercel [11] :=
  vercel_allowlist.2.2.2.2 [11] (by decide)

/-- C5: after a successful preload, each aggregate identifier equals the
last schedule identifier in repository iteration order for which the
corresponding predicate holds at the preload-time reference clock, each
computed independently over a full scan. -/
theorem preload_aggregates (env env' : Env)
    (h : preloadNodeVersions env = .ok env') :
    env'.nodeVersionLatestCurrent = lastSatisfying
      (fun v => okTrue (isNodeVersionCurrent { env with preloaded := true } v))
      env.scheduleIdentifiers ∧
    env'.nodeVersionLatestActive = lastSatisfying
      (fun v => okTrue (isNodeVersionActive { env with preloaded := true } v))
      env.scheduleIdentifiers ∧
    env'.nodeVersionLatestMaintenance = lastSatisfying
      (fun v => okTrue (isNodeVersionMaintenance { env with preloaded := true } v))
      env.scheduleIdentifiers := by
  rw [preload_ok_eq env env' h]
  exact ⟨rfl, rfl, rfl⟩

theorem preload_aggregates_witness :
    preloadNodeVersions envP = .ok envP' ∧
    envP'.nodeVersionLatestActive = lastSatisfying
      (fun v => okTrue (isNodeVersionActive { envP with preloaded := true } v))
      envP.scheduleIdentifiers :=
  ⟨rfl, (preload_aggregates envP envP' rfl).2.1⟩

/-- C10: a successful preload over a schedule in which no identifier
satisfies `active` leaves the `latestActive` aggregate undefined, and
every subsequent `isNodeVersionLatestActive` call still throws the
unpreloaded error. -/
theorem latest_active_error_after_preload (env env' : Env)
    (h : preloadNodeVersions env = .ok env')
    (hempty : ∀ v ∈ env.scheduleIdentifiers,
      isNodeVersionActive { env with preloaded := true } v ≠ .ok true) :
    env'.nodeVersionLatestActive = none ∧
    ∀ w, isNodeVersionLatestActive env' w =
      .error "You must await [preloadNodeVersions] prior to using the [isNodeVersionLatestActive] filter." := by
  have hnone : env'.nodeVersionLatestActive = none := by
    rw [preload_ok_eq env env' h]
    exact lastSatisfying_eq_none _ _ fun v hv => okTrue_eq_false (hempty v hv)
  refine ⟨hnone, fun w => ?_⟩
  unfold isNodeVersionLatestActive
  rw [hnone]

theorem latest_active_error_after_preload_witness :
    isNodeVersionLatestActive { envN with preloaded := true } [13] =
      .error "You must await [preloadNodeVersions] prior to using the [isNodeVersionLatestActive] filter." :=
  (latest_active_error_after_preload envN { envN with preloaded := true } rfl
    (fun v hv => by
      have hv' : v = [13] := by simpa [envN, envP] using hv
      subst hv'
      decide)).2 [13]

/-- C3, counterexample: `0.10.5` is absolute and belongs to a line at or
after the first tracked line `0.8`, its release entry records no LTS
label, yet `isNodeVersionLTS` returns `true` — the release-label gate is
only applied from line `1` upward, not from `0.8`. -/
theorem lts_label_gate_counterexample :
    isAbsoluteVersion [0, 10, 5] = true ∧
    versionCompare [0, 10, 5] [0, 8] = 1 ∧
    envC3.release [0, 10, 5] = some { date := 0, lts := none } ∧
    isNodeVersionLTS envC3 [0, 10, 5] = .ok true :=
  ⟨rfl, rfl, rfl, rfl⟩

/-- C3, amended: after preload, `isNodeVersionLTS` returns `true` exactly
when the safe lookup finds an entry whose `lts` date is present or whose
`maintenance` date is absent, and — for absolute identifiers comparing at
or above line `1` (not `0.8`) — the release repository records a string
LTS label. -/
theorem isNodeVersionLTS_spec (env : Env) (v : NodeVersionInput)
    (hp : env.preloaded = true) :
    isNodeVersionLTS env v = .ok true ↔
      ((isAbsoluteVersion v = true ∧ versionCompare v [1] ≥ 0) →
        ∃ rel s, env.release v = some rel ∧ rel.lts = some s) ∧
      ∃ meta, getNodeScheduleInformationSafe env v = .ok (.found meta) ∧
        (meta.lts.isSome || meta.maintenance.isNone) = true := by
  constructor
  · intro hLTS
    unfold isNodeVersionLTS at hLTS
    simp only [hp, Bool.true_eq_false, if_false, ite_false, throw_eq_error] at hLTS
    by_cases hgate : isAbsoluteVersion v = true ∧ versionCompare v [1] ≥ 0
    · rw [if_pos hgate] at hLTS
      cases hr : env.release v with
      | none => simp [getNodeReleaseInformation, hr] at hLTS
      | some rel =>
        simp only [getNodeReleaseInformation, hr, ok_bind] at hLTS
        cases hlab : rel.lts with
        | none => simp [hlab] at hLTS
        | some s =>
          simp only [hlab, Option.isNone_some, Bool.false_eq_true, if_false,
            ite_false] at hLTS
          refine ⟨fun _ => ⟨rel, s, rfl, hlab⟩, ?_⟩
          cases hsl : getNodeScheduleInformationSafe env v with
          | error e => rw [hsl] at hLTS; simp at hLTS
          | ok sl =>
            rw [hsl] at hLTS
            cases sl with
            | sentinel => simp at hLTS
            | found meta => exact ⟨meta, rfl, by simpa using hLTS⟩
    · rw [if_neg hgate] at hLTS
      refine ⟨fun hg => absurd hg hgate, ?_⟩
      cases hsl : getNodeScheduleInformationSafe env v with
      | error e => rw [hsl] at hLTS; simp at hLTS
      | ok sl =>
        rw [hsl] at hLTS
        cases sl with
        | sentinel => simp at hLTS
        | found meta => exact ⟨meta, rfl, by simpa using hLTS⟩
  · rintro ⟨hrelcond, meta, hsafe, hflag⟩
    unfold isNodeVersionLTS
    by_cases hgate : isAbsoluteVersion v = true ∧ versionCompare v [1] ≥ 0
    · obtain ⟨rel, s, hr, hlab⟩ := hrelcond hgate
      simp [hp, hgate, getNodeReleaseInformation, hr, hlab, hsafe, hflag]
    · simp [hp, hgate, hsafe, hflag]

theorem isNodeVersionLTS_spec_witness :
    isNodeVersionLTS envC3 [0, 10, 5] = .ok true ↔
      ((isAbsoluteVersion [0, 10, 5] = true ∧
          versionCompare [0, 10, 5] [1] ≥ 0) →
        ∃ rel s, envC3.release [0, 10, 5] = some rel ∧ rel.lts = some s) ∧
      ∃ meta, getNodeScheduleInformationSafe envC3 [0, 10, 5] =
          .ok (.found meta) ∧
        (meta.lts.isSome || meta.maintenance.isNone) = true :=
  isNodeVersionLTS_spec envC3 [0, 10, 5] rfl

/-- When every check succeeds, running the checks yields the boolean
conjunction of their values. -/
theorem andAllE_all_ok (l : List (Except String Bool))
    (h : ∀ c ∈ l, predOk c = true) : andAllE l = .ok (l.all okTrue) := by
  induction l with
  | nil => rfl
  | cons c cs ih =>
    obtain ⟨b, hb⟩ : ∃ b, c = .ok b := by
      cases hc : c with
      | error e => have := h c (by simp); rw [hc] at this; cases this
      | ok b => exact ⟨b, rfl⟩
    subst hb
    cases b with
    | true => simp [andAllE, ih fun x hx => h x (by simp [hx])]
    | false => simp [andAllE]

/-- Every member of a `presentChecks` list is one of the keyed predicates
applied to the environment and version. -/
theorem mem_presentChecks
    (cs : List ((Filters → Bool) × (Env → NodeVersionInput → Except String Bool)))
    (env : Env) (v : NodeVersionInput) (f : Filters) (c : Except String Bool)
    (h : c ∈ presentChecks cs env v f) : ∃ kp ∈ cs, c = kp.2 env v := by
  induction cs with
  | nil => simp [presentChecks] at h
  | cons kp cs ih =>
    simp only [presentChecks, List.foldr_cons] at h
    rw [List.mem_append] at h
    rcases h with h | h
    · by_cases hk : kp.1 f
      · rw [if_pos hk] at h
        simp at h
        exact ⟨kp, by simp, h⟩
      · rw [if_neg hk] at h
        simp at h
    · obtain ⟨kp', hkp', hc⟩ := ih h
      exact ⟨kp', by simp [hkp'], hc⟩

/-- Merging two configurations conjoins the check outcomes, key by key. -/
theorem presentChecks_merge_all
    (cs : List ((Filters → Bool) × (Env → NodeVersionInput → Except String Bool)))
    (env : Env) (v : NodeVersionInput) (a b : Filters)
    (hkey : ∀ kp ∈ cs, kp.1 (mergeFilters a b) = (kp.1 a || kp.1 b)) :
    (presentChecks cs env v (mergeFilters a b)).all okTrue =
      ((presentChecks cs env v a).all okTrue &&
        (presentChecks cs env v b).all okTrue) := by
  induction cs with
  | nil => rfl
  | cons kp cs ih =>
    have hk := hkey kp (by simp)
    have ih' := ih fun x hx => hkey x (by simp [hx])
    simp only [presentChecks, List.foldr_cons] at ih' ⊢
    rw [List.all_append, List.all_append, List.all_append, ih', hk]
    cases hka : kp.1 a <;> cases hkb : kp.1 b <;>
      cases hval : okTrue (kp.2 env v) <;>
      simp [hval]

/-- Each boolean filter key of the merged configuration is the
disjunction of the two configurations' keys. -/
theorem booleanChecks_merge_key (a b : Filters) :
    ∀ kp ∈ booleanChecks, kp.1 (mergeFilters a b) = (kp.1 a || kp.1 b) := by
  intro kp h
  simp only [booleanChecks, List.mem_cons, List.not_mem_nil, or_false] at h
  rcases h with rfl | rfl | rfl | rfl | rfl | rfl | rfl | rfl | rfl | rfl | rfl | rfl | rfl <;> rfl

/-- For a boolean-only configuration only the boolean checks remain. -/
theorem nodeVersionChecks_booleanOnly (env : Env) (v : NodeVersionInput)
    (f : Filters) (h : booleanOnly f) :
    nodeVersionChecks env v f = presentChecks booleanChecks env v f := by
  obtain ⟨h1, h2, h3, h4, h5⟩ := h
  unfold nodeVersionChecks
  rw [h1, h2, h3, h4, h5]
  rfl

/-- With every predicate error-free, `isNodeVersion` on a boolean-only
configuration is the conjunction of the present keys' values. -/
theorem isNodeVersion_ok (env : Env) (v : NodeVersionInput) (f : Filters)
    (h : booleanOnly f) (hok : predsOk env v) :
    isNodeVersion env v f =
      .ok ((presentChecks booleanChecks env v f).all okTrue) := by
  rw [isNodeVersion, nodeVersionChecks_booleanOnly env v f h]
  exact andAllE_all_ok _ fun c hc => by
    obtain ⟨kp, hkp, rfl⟩ := mem_presentChecks booleanChecks env v f c hc
    exact hok kp hkp

theorem mergeFilters_booleanOnly (a b : Filters) :
    booleanOnly (mergeFilters a b) :=
  ⟨rfl, rfl, rfl, rfl, rfl⟩

/-- C4, amended: for boolean-only configurations, sequential filtering
equals filtering by the merged configuration, provided every classifier
predicate evaluates without error on every element of the list (after a
successful preload with aggregates computed); when a predicate can throw,
the two sides can differ because the error surfaces in one evaluation
order but is short-circuited away in the other. -/
theorem filter_merge_eq (env : Env) (L : List NodeVersionInput) (a b : Filters)
    (ha : booleanOnly a) (hb : booleanOnly b)
    (hok : ∀ v ∈ L, predsOk env v) :
    (filterNodeVersions env L a >>= fun la => filterNodeVersions env la b) =
      filterNodeVersions env L (mergeFilters a b) := by
  have hokA : ∀ v ∈ L, predOk (isNodeVersion env v a) = true := fun v hv => by
    rw [isNodeVersion_ok env v a ha (hok v hv)]; rfl
  have hokB : ∀ v ∈ L, predOk (isNodeVersion env v b) = true := fun v hv => by
    rw [isNodeVersion_ok env v b hb (hok v hv)]; rfl
  have hokM : ∀ v ∈ L, predOk (isNodeVersion env v (mergeFilters a b)) = true :=
    fun v hv => by
      rw [isNodeVersion_ok env v _ (mergeFilters_booleanOnly a b) (hok v hv)]; rfl
  unfold filterNodeVersions
  rw [filterE_ok_of_all _ _ hokA, ok_bind,
    filterE_ok_of_all _ _ (fun v hv => hokB v (List.mem_filter.mp hv).1),
    filterE_ok_of_all _ _ hokM]
  congr 1
  rw [List.filter_filter]
  refine List.filter_congr fun v hv => ?_
  rw [isNodeVersion_ok env v a ha (hok v hv),
    isNodeVersion_ok env v b hb (hok v hv),
    isNodeVersion_ok env v _ (mergeFilters_booleanOnly a b) (hok v hv)]
  simp only [okTrue_ok]
  rw [presentChecks_merge_all booleanChecks env v a b (booleanChecks_merge_key a b)]
  exact Bool.and_comm _ _

/-- C4, counterexample: over the unpreloaded `envU` with the single
version `10`, filtering by the boolean-only configuration with key `lts`
and then by the one with key `esm` throws (the `lts` predicate raises the
unpreloaded error), while filtering once by the merged configuration
returns the empty list, because the merged evaluation order reaches the
cheap failing `esm` key before `lts`. -/
theorem filter_merge_counterexample :
    booleanOnly ({ lts := true } : Filters) ∧
    booleanOnly ({ esm := true } : Filters) ∧
    (filterNodeVersions envU [[10]] { lts := true } >>= fun la =>
      filterNodeVersions envU la { esm := true }) ≠
      filterNodeVersions envU [[10]]
        (mergeFilters { lts := true } { esm := true }) := by
  refine ⟨⟨rfl, rfl, rfl, rfl, rfl⟩, ⟨rfl, rfl, rfl, rfl, rfl⟩, ?_⟩
  decide

theorem filter_merge_eq_witness :
    (filterNodeVersions envW [[10], [12], [13], [15]] { esm := true } >>= fun la =>
      filterNodeVersions envW la { maintained := true }) =
      filterNodeVersions envW [[10], [12], [13], [15]]
        (mergeFilters { esm := true } { maintained := true }) :=
  filter_merge_eq envW [[10], [12], [13], [15]] { esm := true }
    { maintained := true } ⟨rfl, rfl, rfl, rfl, rfl⟩ ⟨rfl, rfl, rfl, rfl, rfl⟩
    (fun v hv => by
      have hv' : v = [10] ∨ v = [12] ∨ v = [13] ∨ v = [15] := by simpa using hv
      intro kp hkp
      simp only [booleanChecks, List.mem_cons, List.not_mem_nil, or_false] at hkp
      rcases hv' with rfl | rfl | rfl | rfl <;>
        rcases hkp with rfl | rfl | rfl | rfl | rfl | rfl | rfl | rfl | rfl | rfl | rfl | rfl | rfl <;>
        decide)
